import Mathlib

/-!
Shallow embedding of the book-catalog CRUD service (BuchService, its REST
request handler and GraphQL resolvers) together with proofs about its
update/versioning and validation pipeline.

The service class `BuchService` is embedded function by function; the
MongoDB/Mongoose store driver is an external collaborator and is modelled
from the spec's Store contract as explicit state passing over a list of
documents.
-/

set_option maxRecDepth 4000

/-- Validation report: the names of the violated fields
(`ValidationErrorMsg` in the source; empty/absent means valid). -/
abbrev ValidationErrorMsg := List String

/-- The record under management (`Buch`/`BuchData` in the source).
Optional fields of the TypeScript interface are `Option`s; `_id` and `__v`
are absent until assigned by the store. -/
structure Buch where
  _id : Option String
  __v : Option Int
  createdAt : Option Int
  updatedAt : Option Int
  titel : String
  rating : Option Int
  art : Option String
  verlag : String
  preis : Rat
  rabatt : Option Rat
  lieferbar : Option Bool
  datum : Option String
  isbn : String
  homepage : Option String
  schlagwoerter : List String
deriving DecidableEq, Repr

/-- The closed taxonomy of business failures (`errors.ts`): each failure
class of the source becomes one constructor carrying the same payload. -/
inductive BuchServiceError where
  | BuchInvalid (msg : ValidationErrorMsg)
  | BuchNotExists (id : Option String)
  | TitelExists (titel : String) (id : Option String)
  | IsbnExists (isbn : String) (id : Option String)
  | VersionInvalid (version : Option String)
  | VersionOutdated (id : String) (version : Int)
deriving DecidableEq, Repr

/-- The document store: the list of persisted documents, in insertion
order (MongoDB natural order). -/
abbrev Store := List Buch

/-! ### Store collaborator (Mongoose driver), modelled from the spec -/

/-- Modelled from the spec: the Store collaborator's
`findById(id) -> Record?` (in the source `BuchModel.findById(id).lean()`,
whose implementation is the external Mongoose driver): the document whose
`_id` equals `id`, if any. -/
def findDocById (st : Store) (id : String) : Option Buch :=
  st.find? (fun r => r._id = some id)

/-- Modelled from the spec: `findByField(field, value)` for the `titel`
field (in the source `BuchModel.findOne({ titel })`): the first document
with that title, if any. -/
def findOneByTitel (st : Store) (t : String) : Option Buch :=
  st.find? (fun r => r.titel = t)

/-- Modelled from the spec: existence lookup by `titel`
(`BuchModel.exists({ titel })`), which reports only a boolean. -/
def existsByTitel (st : Store) (t : String) : Bool :=
  (findOneByTitel st t).isSome

/-- Modelled from the spec: existence lookup by `isbn`
(`BuchModel.exists({ isbn })`), which reports only a boolean. -/
def existsByIsbn (st : Store) (i : String) : Bool :=
  (st.find? (fun r => r.isbn = i)).isSome

/-- Modelled from the spec: `replaceById(id, Record) -> Record?`
(`BuchModel.findByIdAndUpdate` with `{ new: true }`). Per the spec the
store replaces the whole document and "increments `version` to
`storedVersion + 1` as part of the atomic write", returning the updated
document, or none if no document with that id exists. -/
def replaceById (st : Store) (id : String) (auto : Buch) :
    Store × Option Buch :=
  match st.find? (fun r => r._id = some id) with
  | none => (st, none)
  | some old =>
    let newDoc : Buch :=
      { auto with _id := some id, __v := some (old.__v.getD 0 + 1) }
    (st.map (fun r => if r._id = some id then newDoc else r), some newDoc)

/-- `BuchModel.findByIdAndUpdate(auto._id, ...)`: the id the service hands
over may be absent, in which case no document matches. -/
def findByIdAndUpdate (st : Store) (id : Option String) (auto : Buch) :
    Store × Option Buch :=
  match id with
  | none => (st, none)
  | some i => replaceById st i auto

/-- Modelled from the spec: `deleteById` (`BuchModel.findByIdAndDelete`):
removes the document with the given id and returns it, or returns none
and leaves the store unchanged. -/
def findByIdAndDelete (st : Store) (id : String) : Store × Option Buch :=
  match st.find? (fun r => r._id = some id) with
  | none => (st, none)
  | some d => (st.eraseP (fun r => r._id = some id), some d)

/-- Modelled from the spec: persisting a new document
(`new BuchModel(auto); save()`): "Persist with `version = 0`,
server-assigned `id`, server-assigned timestamps". The fresh id and the
timestamp are explicit inputs (the nondeterminism of the store made
visible). -/
def saveNew (st : Store) (auto : Buch) (freshId : String) (now : Int) :
    Store × String :=
  let doc : Buch :=
    { auto with
      _id := some freshId, __v := some 0,
      createdAt := some now, updatedAt := some now }
  (st ++ [doc], freshId)

/-! ### JavaScript `Number.parseInt(s, 10)` -/

/-- Longest leading run of decimal digits, as a number; none if the run
is empty (which makes `parseInt` yield `NaN`). -/
def digitsValue (cs : List Char) : Option Nat :=
  let ds := cs.takeWhile Char.isDigit
  if ds.isEmpty then none
  else some (ds.foldl (fun acc c => 10 * acc + (c.toNat - 48)) 0)

/-- `Number.parseInt(s, 10)`: skip leading whitespace, read an optional
sign, then as many decimal digits as possible (trailing garbage is
ignored); `NaN` (here: none) when no digit is found. -/
def parseIntJS (s : String) : Option Int :=
  let cs := s.data.dropWhile (fun c => c = ' ' ∨ c = '\t' ∨ c = '\n' ∨ c = '\r')
  match cs with
  | '-' :: rest => (digitsValue rest).map (fun n => -(n : Int))
  | '+' :: rest => (digitsValue rest).map (fun n => (n : Int))
  | _ => (digitsValue cs).map (fun n => (n : Int))

namespace BuchService

/-- `BuchService.validateVersion`: an absent token or one whose
`parseInt` is `NaN` yields `VersionInvalid` carrying the token; any other
token yields the parsed number. -/
def validateVersion (versionStr : Option String) :
    Except BuchServiceError Int :=
  match versionStr with
  | none => .error (.VersionInvalid none)
  | some s =>
    match parseIntJS s with
    | none => .error (.VersionInvalid (some s))
    | some version => .ok version

/-- `BuchService.checkIdAndVersion`: load the stored document; absent →
`BuchNotExists(id)`; supplied version strictly below the stored version
(`autoDb.__v ?? 0`) → `VersionOutdated(id, version)`; otherwise ok. -/
def checkIdAndVersion (st : Store) (id : String) (version : Int) :
    Option BuchServiceError :=
  match findDocById st id with
  | none => some (.BuchNotExists (some id))
  | some autoDb =>
    let versionDb := autoDb.__v.getD 0
    if version < versionDb then some (.VersionOutdated id version)
    else none

/-- `BuchService.checkTitelExists`: `findOne({ titel })`; when a document
with the candidate's title exists, report its title and its `_id`. -/
def checkTitelExists (st : Store) (auto : Buch) :
    Option (String × Option String) :=
  match findOneByTitel st auto.titel with
  | none => none
  | some result => some (auto.titel, result._id)

end BuchService

/-- Modelled from the spec: `validateBuch` (the Validator of
`../entity`, whose module is not part of the sources at hand). Per the
spec it is pure, collects all violations without short-circuiting, and
checks among others a required title, `preis ≥ 0`, `rabatt ∈ [0,1)` and
that `art` and every tag come from the fixed enums; it returns nothing
when there is no violation and otherwise the non-empty report. -/
def validateBuch (auto : Buch) : Option ValidationErrorMsg :=
  let msgs : ValidationErrorMsg :=
    (if auto.titel = "" then ["titel"] else []) ++
    (if auto.preis < 0 then ["preis"] else []) ++
    (if ¬ (0 ≤ auto.rabatt.getD 0 ∧ auto.rabatt.getD 0 < 1)
      then ["rabatt"] else []) ++
    (match auto.art with
      | none => []
      | some a => if a = "DRUCKAUSGABE" ∨ a = "KINDLE" then [] else ["art"]) ++
    (if auto.schlagwoerter.all
        (fun s => s = "JAVASCRIPT" ∨ s = "TYPESCRIPT")
      then [] else ["schlagwoerter"])
  if msgs.isEmpty then none else some msgs

namespace BuchService

/-- The tail of `BuchService.validateUpdate` after the title check: the
`auto._id === undefined` guard followed by `checkIdAndVersion`. -/
def validateUpdateTail (st : Store) (auto : Buch) (version : Int) :
    Option BuchServiceError :=
  match auto._id with
  | none => some (.BuchNotExists none)
  | some id => checkIdAndVersion st id version

/-- `BuchService.validateUpdate`: version guard, then validator, then
title-uniqueness check (ignored when the conflicting id is the
candidate's own), then presence of `_id`, then the id/version currency
check; the first failure is returned, none when all pass. -/
def validateUpdate (st : Store) (auto : Buch) (versionStr : Option String) :
    Option BuchServiceError :=
  match validateVersion versionStr with
  | .error e => some e
  | .ok version =>
    match validateBuch auto with
    | some validationMsg => some (.BuchInvalid validationMsg)
    | none =>
      let resultTitel := checkTitelExists st auto
      match resultTitel with
      | some (titel, conflictId) =>
        if conflictId ≠ auto._id then some (.TitelExists titel conflictId)
        else validateUpdateTail st auto version
      | none => validateUpdateTail st auto version

/-- The write step of `BuchService.update` after successful validation:
`findByIdAndUpdate` with `{ new: true }`; a vanished document yields
`BuchNotExists(auto._id)`, otherwise the updated document's version is
returned. -/
def updateWrite (st : Store) (auto : Buch) :
    Store × Except BuchServiceError Int :=
  match findByIdAndUpdate st auto._id auto with
  | (st', none) => (st', .error (.BuchNotExists auto._id))
  | (st', some updated) => (st', .ok (updated.__v.getD 0))

/-- `BuchService.update`: validate, then replace-by-id. -/
def update (st : Store) (auto : Buch) (versionStr : Option String) :
    Store × Except BuchServiceError Int :=
  match validateUpdate st auto versionStr with
  | some e => (st, .error e)
  | none => updateWrite st auto

/-- `BuchService.validateCreate`: validator, then title existence, then
isbn existence; the existence lookups report only a boolean, so the
conflict errors carry no conflicting id. -/
def validateCreate (st : Store) (auto : Buch) : Option BuchServiceError :=
  match validateBuch auto with
  | some msg => some (.BuchInvalid msg)
  | none =>
    if existsByTitel st auto.titel then some (.TitelExists auto.titel none)
    else if existsByIsbn st auto.isbn then some (.IsbnExists auto.isbn none)
    else none

/-- `BuchService.sendmail`: the mail dispatch is wrapped in try/catch
whose handler only logs, so whether the mailer succeeds or throws
(`mailResult`), the call returns normally with no value. -/
def sendmail (mailResult : Except String Unit) : Unit :=
  match mailResult with
  | .ok _ => ()
  | .error _ => ()

/-- `BuchService.create`: validate (validator + uniqueness), then persist
(fresh id and timestamp made explicit), then the best-effort mail, then
return the new id. -/
def create (st : Store) (auto : Buch) (freshId : String) (now : Int)
    (mailResult : Except String Unit) :
    Store × Except BuchServiceError String :=
  match validateCreate st auto with
  | some e => (st, .error e)
  | none =>
    let saved := saveNew st auto freshId now
    let _ := sendmail mailResult
    (saved.1, .ok saved.2)

/-- `BuchService.delete`: `findByIdAndDelete`, then report whether a
document was removed (`deleted !== null`). -/
def delete (st : Store) (id : String) : Store × Bool :=
  let deleted := findByIdAndDelete st id
  (deleted.1, deleted.2.isSome)

/-- `BuchService.deleteTimestamps`: drop the server-assigned
`createdAt`/`updatedAt` before a document is handed to a caller. -/
def deleteTimestamps (auto : Buch) : Buch :=
  { auto with createdAt := none, updatedAt := none }

/-- `BuchService.findById`: store lookup, none when absent, otherwise
the document with its timestamps removed. -/
def findById (st : Store) (id : String) : Option Buch :=
  match findDocById st id with
  | none => none
  | some auto => some (deleteTimestamps auto)

end BuchService

/-! ### The read-path query (`BuchService.find`) -/

/-- The query parameters the service inspects: a `titel` filter and the
`javascript`/`typescript` flags (Express delivers them as strings). -/
structure Query where
  titel : Option String
  javascript : Option String
  typescript : Option String
deriving DecidableEq, Repr

/-- `Object.entries(query).length === 0`: no parameter present. -/
def Query.isEmptyQ (q : Query) : Bool :=
  q.titel = none ∧ q.javascript = none ∧ q.typescript = none

/-- Insert into a list sorted by title (`sort('titel')` of the
all-documents branch). -/
def insertByTitel (a : Buch) : List Buch → List Buch
  | [] => [a]
  | b :: bs =>
    if a.titel ≤ b.titel then a :: b :: bs else b :: insertByTitel a bs

/-- Sorting by title (`sort('titel')`). -/
def sortByTitel : List Buch → List Buch
  | [] => []
  | a :: as => insertByTitel a (sortByTitel as)

/-- Case-insensitive comparison uses lower-cased character lists. -/
def lowerStr (s : String) : List Char :=
  s.data.map Char.toLower

/-- Whether `needle` occurs as a contiguous substring of `hay`. -/
def hasSubstr (hay needle : List Char) : Bool :=
  match hay with
  | [] => needle.isEmpty
  | _ :: t => needle.isPrefixOf hay || hasSubstr t needle

/-- Modelled from the spec: `new RegExp(pattern, 'iu').test(s)` of the
store's filter evaluation, for metacharacter-free patterns — per the
spec "partial-match on name via case-insensitive substring". -/
def regexTestCI (pattern s : String) : Bool :=
  hasSubstr (lowerStr s) (lowerStr pattern)

/-- The `schlagwoerter` list the service builds from the
`javascript`/`typescript` flags (a flag counts only when it is the
string `'true'`). -/
def buildSchlagwoerter (q : Query) : List String :=
  (if q.javascript = some "true" then ["JAVASCRIPT"] else []) ++
  (if q.typescript = some "true" then ["TYPESCRIPT"] else [])

/-- The title entry of the `dbQuery` the service builds: the regex
pattern is added back only when the title filter is defined and shorter
than 10 characters; otherwise `dbQuery` carries no title constraint. -/
def titelPat (q : Query) : Option String :=
  match q.titel with
  | some t => if t.length < 10 then some t else none
  | none => none

/-- The `schlagwoerter` entry of the `dbQuery`: absent when no flag was
set, otherwise the built tag list. -/
def tagsFilter (q : Query) : Option (List String) :=
  if (buildSchlagwoerter q).isEmpty then none else some (buildSchlagwoerter q)

/-- Modelled from the spec: the store's evaluation of the tag entry of a
`dbQuery` — set-membership of every requested tag in `schlagwoerter`. -/
def tagsMatch (tags : Option (List String)) (r : Buch) : Bool :=
  match tags with
  | some l => l.all (fun t => r.schlagwoerter.contains t)
  | none => true

/-- Modelled from the spec: the store's evaluation of the `dbQuery` the
service builds — the optional title pattern as a case-insensitive
substring match and the optional tag list as set-membership on
`schlagwoerter`. -/
def matchesDbQuery (pat : Option String) (tags : Option (List String))
    (r : Buch) : Bool :=
  (match pat with
    | some p => regexTestCI p r.titel
    | none => true) &&
  tagsMatch tags r

namespace BuchService

/-- `BuchService.find`: with no query (or an empty one), all documents
sorted by title; otherwise the service re-adds the title filter as a
case-insensitive regex only when it is shorter than 10 characters
(a longer title filter is dropped from `dbQuery` altogether), builds the
tag list from the flags, queries the store and strips the timestamps of
every result. -/
def find (st : Store) (q : Option Query) : List Buch :=
  match q with
  | none => (sortByTitel st).map deleteTimestamps
  | some query =>
    if query.isEmptyQ then (sortByTitel st).map deleteTimestamps
    else
      (st.filter (matchesDbQuery (titelPat query) (tagsFilter query))).map
        deleteTimestamps

end BuchService

/-! ### The GraphQL resolver (`resolvers.ts`) -/

/-- `updateBuch` of the GraphQL resolvers: the version token handed to
the pipeline is the candidate's own `__v` (defaulting to 0 through
`auto.__v ?? 0`) rendered as a string. -/
def updateBuch (st : Store) (auto : Buch) :
    Store × Except BuchServiceError Int :=
  let version : Int := auto.__v.getD 0
  BuchService.update st auto (some (toString version))

/-! ### Concrete sample data (from the seed data of the test database) -/

/-- The id of the first seed document. -/
def alphaId : String := "00000000-0000-0000-0000-000000000001"

/-- A stored document, after the first seed record. -/
def buchAlpha : Buch :=
  { _id := some alphaId, __v := some 0, createdAt := some 1, updatedAt := some 1,
    titel := "Alpha", rating := some 4, art := some "DRUCKAUSGABE",
    verlag := "FOO_PRODUZENT", preis := 11, rabatt := some 0,
    lieferbar := some true, datum := some "2020-02-01",
    isbn := "978-3897225831", homepage := some "https://acme.at/",
    schlagwoerter := ["JAVASCRIPT"] }

/-- An update candidate for the first seed document: the same fields, as
a client would submit them (no version, no timestamps). -/
def candAlpha : Buch :=
  { buchAlpha with __v := none, createdAt := none, updatedAt := none }

/-- A create candidate that reuses the stored title (no id yet). -/
def candCreate : Buch :=
  { candAlpha with _id := none }

/-- A create candidate with a fresh title and a fresh isbn. -/
def candBeta : Buch :=
  { candCreate with titel := "Beta", isbn := "978-3827315526" }

/-! ## Claim theorems and helper lemmas -/


/-- C1 (amended): for every candidate record and every version token that
is undefined or whose `parseInt` yields `NaN`, `update` returns
`VersionInvalid` carrying that token, before any validation of the
candidate and so regardless of candidate validity; for any other token
the guard returns the parsed integer — which, contrary to the original
claim, may be negative. -/
theorem c1_version_guard_first (st : Store) (auto : Buch)
    (tok : Option String) (s : String) (v : Int) :
    ((tok = none ∨ ∃ s0, tok = some s0 ∧ parseIntJS s0 = none) →
      BuchService.update st auto tok =
        (st, .error (.VersionInvalid tok))) ∧
    (parseIntJS s = some v →
      BuchService.validateVersion (some s) = .ok v) := by
  constructor
  · rintro (rfl | ⟨s0, rfl, hp⟩)
    · simp [BuchService.update, BuchService.validateUpdate,
        BuchService.validateVersion]
    · simp [BuchService.update, BuchService.validateUpdate,
        BuchService.validateVersion, hp]
  · intro h
    simp [BuchService.validateVersion, h]

/-- C1 counterexample: the token `"-1"` is parsed to the negative number
`-1` and accepted by the guard, so the guard does not always return a
non-negative integer as the claim states. -/
theorem c1_counterexample :
    BuchService.validateVersion (some "-1") = Except.ok (-1) ∧
    (BuchService.update [buchAlpha] candAlpha (some "-1")).2 ≠
      Except.error (BuchServiceError.VersionInvalid (some "-1")) ∧
    (-1 : Int) < 0 := by
  have hval : (BuchService.update [buchAlpha] candAlpha (some "-1")).2 =
      Except.error (BuchServiceError.VersionOutdated alphaId (-1)) := by rfl
  refine ⟨rfl, ?_, by decide⟩
  rw [hval]
  intro h
  injection h with h2
  exact BuchServiceError.noConfusion h2

/-- C1 witness: at a concrete invalid candidate and the unparsable token
`"x"`, `update` returns `VersionInvalid "x"`; the token `"7"` parses to
`7`. -/
theorem c1_witness :
    BuchService.update [buchAlpha] { candAlpha with preis := -1 } (some "x") =
      ([buchAlpha],
        Except.error (BuchServiceError.VersionInvalid (some "x"))) ∧
    BuchService.validateVersion (some "7") = Except.ok 7 := by
  have h := c1_version_guard_first [buchAlpha]
    { candAlpha with preis := -1 } (some "x") "7" 7
  exact ⟨h.1 (Or.inr ⟨"x", rfl, rfl⟩), h.2 rfl⟩

/-- C2: the currency check loads the stored record for the id; if no
record exists it returns `BuchNotExists(id)`; if the supplied version is
strictly less than the stored version it returns
`VersionOutdated(id, suppliedVersion)`; otherwise (supplied ≥ stored)
the check passes. -/
theorem c2_check_currency (st : Store) (id : String) (v : Int) (r : Buch) :
    (findDocById st id = none →
      BuchService.checkIdAndVersion st id v =
        some (BuchServiceError.BuchNotExists (some id))) ∧
    (findDocById st id = some r → v < r.__v.getD 0 →
      BuchService.checkIdAndVersion st id v =
        some (BuchServiceError.VersionOutdated id v)) ∧
    (findDocById st id = some r → r.__v.getD 0 ≤ v →
      BuchService.checkIdAndVersion st id v = none) := by
  refine ⟨?_, ?_, ?_⟩
  · intro h
    simp [BuchService.checkIdAndVersion, h]
  · intro h hlt
    simp [BuchService.checkIdAndVersion, h, hlt]
  · intro h hle
    simp [BuchService.checkIdAndVersion, h, not_lt.mpr hle]

/-- C2 witness: the three cases of the currency check evaluated at a
concrete store. -/
theorem c2_witness :
    BuchService.checkIdAndVersion [buchAlpha] "zzz" 0 =
      some (BuchServiceError.BuchNotExists (some "zzz")) ∧
    BuchService.checkIdAndVersion [buchAlpha] alphaId (-2) =
      some (BuchServiceError.VersionOutdated alphaId (-2)) ∧
    BuchService.checkIdAndVersion [buchAlpha] alphaId 0 = none := by
  have h1 := c2_check_currency [buchAlpha] "zzz" 0 buchAlpha
  have h2 := c2_check_currency [buchAlpha] alphaId (-2) buchAlpha
  have h3 := c2_check_currency [buchAlpha] alphaId 0 buchAlpha
  exact ⟨h1.1 (by decide), h2.2.1 (by decide) (by decide),
    h3.2.2 (by decide) (by decide)⟩

/-- C6: `delete` returns true exactly when a document with the id
existed — in which case one document is removed — and returns false with
the store untouched when none existed; both outcomes are ordinary
return values, not errors. -/
theorem c6_delete (st : Store) (id : String) (d : Buch) :
    (findDocById st id = none → BuchService.delete st id = (st, false)) ∧
    (findDocById st id = some d →
      (BuchService.delete st id).2 = true ∧
      (BuchService.delete st id).1.length + 1 = st.length) ∧
    ((BuchService.delete st id).2 = true ↔ (findDocById st id).isSome) := by
  refine ⟨?_, ?_, ?_⟩
  · intro h
    simp only [findDocById] at h
    simp [BuchService.delete, findByIdAndDelete, h]
  · intro h
    simp only [findDocById] at h
    have hmem : d ∈ st := List.mem_of_find?_eq_some h
    have hpd := List.find?_some h
    constructor
    · simp [BuchService.delete, findByIdAndDelete, h]
    · have hany : st.any (fun r => decide (r._id = some id)) = true :=
        List.any_eq_true.mpr ⟨d, hmem, hpd⟩
      have hlen : st.length ≠ 0 := by
        intro h0
        rw [List.length_eq_zero] at h0
        subst h0
        cases hmem
      simp only [BuchService.delete, findByIdAndDelete, h,
        List.length_eraseP, hany, if_true]
      omega
  · cases hf : findDocById st id with
    | none =>
      simp only [findDocById] at hf
      simp [BuchService.delete, findByIdAndDelete, hf]
    | some d0 =>
      simp only [findDocById] at hf
      simp [BuchService.delete, findByIdAndDelete, hf]

/-- C6 witness: deleting a missing id returns false and leaves the
store unchanged; deleting an existing id returns true and removes one
document. -/
theorem c6_witness :
    BuchService.delete [buchAlpha] "zzz" = ([buchAlpha], false) ∧
    (BuchService.delete [buchAlpha] alphaId).2 = true ∧
    (BuchService.delete [buchAlpha] alphaId).1.length + 1 = 1 := by
  have h1 := c6_delete [buchAlpha] "zzz" buchAlpha
  have h2 := c6_delete [buchAlpha] alphaId buchAlpha
  exact ⟨h1.1 (by decide), (h2.2.1 (by decide)).1, (h2.2.1 (by decide)).2⟩

/-- C8: `create` returns the same result whatever the outcome of the
mail side effect is, and for a candidate passing validation and the
uniqueness checks it returns the new id. -/
theorem c8_mail_swallowed (st : Store) (auto : Buch) (freshId : String)
    (now : Int) (m1 m2 : Except String Unit) :
    BuchService.create st auto freshId now m1 =
      BuchService.create st auto freshId now m2 ∧
    (BuchService.validateCreate st auto = none →
      (BuchService.create st auto freshId now m1).2 = Except.ok freshId) := by
  constructor
  · rfl
  · intro h
    simp [BuchService.create, h, saveNew]

/-- C8 witness: a concrete create succeeds identically under a failing
and a succeeding mailer. -/
theorem c8_witness :
    BuchService.create [buchAlpha] candBeta "fresh-id" 9 (Except.error "boom") =
      BuchService.create [buchAlpha] candBeta "fresh-id" 9 (Except.ok ()) ∧
    (BuchService.create [buchAlpha] candBeta "fresh-id" 9
        (Except.error "boom")).2 = Except.ok "fresh-id" := by
  have h := c8_mail_swallowed [buchAlpha] candBeta "fresh-id" 9
    (Except.error "boom") (Except.ok ())
  exact ⟨h.1, h.2 (by rfl)⟩

theorem mem_insertByTitel (a x : Buch) (l : List Buch) :
    x ∈ insertByTitel a l ↔ x = a ∨ x ∈ l := by
  induction l with
  | nil => simp [insertByTitel]
  | cons b bs ih =>
    by_cases hab : a.titel ≤ b.titel
    · simp [insertByTitel, hab]
    · simp only [insertByTitel, if_neg hab, List.mem_cons, ih]
      tauto

theorem mem_sortByTitel (x : Buch) (l : List Buch) :
    x ∈ sortByTitel l ↔ x ∈ l := by
  induction l with
  | nil => simp [sortByTitel]
  | cons a as ih => simp [sortByTitel, mem_insertByTitel, ih]

/-- C7: the records returned by `findById` and `find` never carry the
server-assigned `createdAt`/`updatedAt` timestamps, and each returned
record is a stored record with exactly those two fields cleared and all
other fields intact. -/
theorem c7_timestamps_stripped (st : Store) (id : String) (q : Option Query)
    (r : Buch) :
    (∀ r0, findDocById st id = some r0 →
      BuchService.findById st id =
        some { r0 with createdAt := none, updatedAt := none }) ∧
    (findDocById st id = none → BuchService.findById st id = none) ∧
    (r ∈ BuchService.find st q →
      r.createdAt = none ∧ r.updatedAt = none ∧
      ∃ r0 ∈ st, r = { r0 with createdAt := none, updatedAt := none }) := by
  refine ⟨?_, ?_, ?_⟩
  · intro r0 h
    simp [BuchService.findById, h, BuchService.deleteTimestamps]
  · intro h
    simp [BuchService.findById, h]
  · intro hr
    have hbase : ∀ r0 : Buch, r = BuchService.deleteTimestamps r0 →
        r0 ∈ st →
        r.createdAt = none ∧ r.updatedAt = none ∧
        ∃ r1 ∈ st, r = { r1 with createdAt := none, updatedAt := none } := by
      intro r0 hre hmem
      subst hre
      exact ⟨rfl, rfl, r0, hmem, rfl⟩
    match q with
    | none =>
      simp only [BuchService.find, List.mem_map] at hr
      obtain ⟨r0, hr0, hre⟩ := hr
      exact hbase r0 hre.symm ((mem_sortByTitel r0 st).mp hr0)
    | some query =>
      cases hq : query.isEmptyQ with
      | true =>
        simp only [BuchService.find, hq, if_true, List.mem_map] at hr
        obtain ⟨r0, hr0, hre⟩ := hr
        exact hbase r0 hre.symm ((mem_sortByTitel r0 st).mp hr0)
      | false =>
        simp only [BuchService.find, hq, Bool.false_eq_true, if_false,
          List.mem_map] at hr
        obtain ⟨r0, hr0, hre⟩ := hr
        exact hbase r0 hre.symm (List.mem_filter.mp hr0).1

/-- C7 witness: `findById` and `find` on a concrete store return the
stored record with only its timestamps removed. -/
theorem c7_witness :
    BuchService.findById [buchAlpha] alphaId =
      some { buchAlpha with createdAt := none, updatedAt := none } ∧
    (BuchService.deleteTimestamps buchAlpha).createdAt = none ∧
    (∃ r0 ∈ [buchAlpha], BuchService.deleteTimestamps buchAlpha =
      { r0 with createdAt := none, updatedAt := none }) := by
  have h1 := c7_timestamps_stripped [buchAlpha] alphaId none
    (BuchService.deleteTimestamps buchAlpha)
  have hmem : BuchService.deleteTimestamps buchAlpha ∈
      BuchService.find [buchAlpha] none := by
    simp [BuchService.find, sortByTitel, insertByTitel]
  have h3 := h1.2.2 hmem
  exact ⟨h1.1 buchAlpha (by decide), h3.1, h3.2.2⟩

theorem find?_replace (st : Store) (id : String) (nd : Buch)
    (hnd : nd._id = some id)
    (h : (st.find? (fun r => r._id = some id)).isSome = true) :
    (st.map (fun r => if r._id = some id then nd else r)).find?
      (fun r => r._id = some id) = some nd := by
  induction st with
  | nil => simp [List.find?] at h
  | cons a t ih =>
    by_cases ha : a._id = some id
    · simp [List.find?, ha, hnd]
    · have hfa : (a :: t).find? (fun r => decide (r._id = some id)) =
          t.find? (fun r => decide (r._id = some id)) := by
        rw [List.find?_cons_of_neg]
        simpa using ha
      rw [hfa] at h
      simp only [List.map_cons, if_neg ha]
      rw [List.find?_cons_of_neg]
      · exact ih h
      · simpa using ha

theorem updateWrite_found (st : Store) (auto : Buch) (id : String) (r : Buch)
    (hid : auto._id = some id) (hr : findDocById st id = some r) :
    BuchService.updateWrite st auto =
      (st.map (fun x => if x._id = some id
          then { auto with _id := some id, __v := some (r.__v.getD 0 + 1) }
          else x),
        Except.ok (r.__v.getD 0 + 1)) ∧
    findDocById (BuchService.updateWrite st auto).1 id =
      some { auto with _id := some id, __v := some (r.__v.getD 0 + 1) } := by
  simp only [findDocById] at hr
  have heq : BuchService.updateWrite st auto =
      (st.map (fun x => if x._id = some id
          then { auto with _id := some id, __v := some (r.__v.getD 0 + 1) }
          else x),
        Except.ok (r.__v.getD 0 + 1)) := by
    simp [BuchService.updateWrite, findByIdAndUpdate, hid, replaceById, hr]
  refine ⟨heq, ?_⟩
  rw [heq]
  simp only [findDocById]
  exact find?_replace st id _ rfl (by simp [hr])

theorem updateWrite_vanished (st : Store) (auto : Buch) (id : String)
    (hid : auto._id = some id) (hr : findDocById st id = none) :
    BuchService.updateWrite st auto =
      (st, Except.error (BuchServiceError.BuchNotExists (some id))) := by
  simp only [findDocById] at hr
  simp [BuchService.updateWrite, findByIdAndUpdate, hid, replaceById, hr]

/-- C3: an accepted update of a record with stored version v returns
`v + 1` and persists exactly that version, while a replace-by-id that
finds no document (the record vanished before the write step) makes the
write step return `BuchNotExists(id)`. -/
theorem c3_update_increment (st : Store) (auto : Buch) (tok : Option String)
    (id : String) (r : Buch) (hid : auto._id = some id) :
    (BuchService.validateUpdate st auto tok = none →
      findDocById st id = some r →
      (BuchService.update st auto tok).2 = Except.ok (r.__v.getD 0 + 1) ∧
      (findDocById (BuchService.update st auto tok).1 id).map (fun d => d.__v)
        = some (some (r.__v.getD 0 + 1))) ∧
    (findDocById st id = none →
      BuchService.updateWrite st auto =
        (st, Except.error (BuchServiceError.BuchNotExists (some id)))) := by
  constructor
  · intro hval hr
    have hupd : BuchService.update st auto tok = BuchService.updateWrite st auto := by
      simp [BuchService.update, hval]
    have h := updateWrite_found st auto id r hid hr
    rw [hupd, h.1]
    refine ⟨rfl, ?_⟩
    have h2 := h.2
    rw [h.1] at h2
    rw [h2]
    rfl
  · intro hr
    exact updateWrite_vanished st auto id hid hr

/-- C3 witness: a concrete accepted update of a version-0 record
returns and persists version 1; the write step against an empty store
reports the record as missing. -/
theorem c3_witness :
    (BuchService.update [buchAlpha] candAlpha (some "0")).2 = Except.ok 1 ∧
    (findDocById (BuchService.update [buchAlpha] candAlpha (some "0")).1
        alphaId).map (fun d => d.__v) = some (some 1) ∧
    BuchService.updateWrite [] candAlpha =
      ([], Except.error (BuchServiceError.BuchNotExists (some alphaId))) := by
  have h1 := c3_update_increment [buchAlpha] candAlpha (some "0") alphaId
    buchAlpha (by rfl)
  have h2 := c3_update_increment [] candAlpha (some "0") alphaId buchAlpha
    (by rfl)
  have hmain := h1.1 (by rfl) (by rfl)
  exact ⟨hmain.1, hmain.2, h2.2 (by rfl)⟩

theorem validateVersion_error_shape (tok : Option String)
    (e : BuchServiceError)
    (h : BuchService.validateVersion tok = Except.error e) :
    ∃ x, e = BuchServiceError.VersionInvalid x := by
  cases tok with
  | none =>
    simp only [BuchService.validateVersion] at h
    refine ⟨none, ?_⟩
    injection h with h
    exact h.symm
  | some s =>
    cases hp : parseIntJS s with
    | none =>
      simp only [BuchService.validateVersion, hp] at h
      refine ⟨some s, ?_⟩
      injection h with h
      exact h.symm
    | some v =>
      simp only [BuchService.validateVersion, hp] at h
      cases h

theorem checkIdAndVersion_some_shape (st : Store) (id : String) (v : Int)
    (e : BuchServiceError)
    (h : BuchService.checkIdAndVersion st id v = some e) :
    (∃ x, e = BuchServiceError.BuchNotExists x) ∨
    ∃ i w, e = BuchServiceError.VersionOutdated i w := by
  unfold BuchService.checkIdAndVersion at h
  cases hf : findDocById st id with
  | none =>
    simp only [hf] at h
    refine Or.inl ⟨some id, ?_⟩
    injection h with h
    exact h.symm
  | some r =>
    simp only [hf] at h
    by_cases hlt : v < r.__v.getD 0
    · rw [if_pos hlt] at h
      refine Or.inr ⟨id, v, ?_⟩
      injection h with h
      exact h.symm
    · rw [if_neg hlt] at h
      cases h

theorem validateUpdateTail_some_shape (st : Store) (auto : Buch) (v : Int)
    (e : BuchServiceError)
    (h : BuchService.validateUpdateTail st auto v = some e) :
    (∃ x, e = BuchServiceError.BuchNotExists x) ∨
    ∃ i w, e = BuchServiceError.VersionOutdated i w := by
  unfold BuchService.validateUpdateTail at h
  cases hid : auto._id with
  | none =>
    simp only [hid] at h
    refine Or.inl ⟨none, ?_⟩
    injection h with h
    exact h.symm
  | some i =>
    simp only [hid] at h
    exact checkIdAndVersion_some_shape st i v e h

theorem checkTitelExists_mem (st : Store) (auto : Buch)
    (p : String × Option String)
    (h : BuchService.checkTitelExists st auto = some p) :
    ∃ r ∈ st, r.titel = auto.titel ∧ p = (auto.titel, r._id) := by
  unfold BuchService.checkTitelExists at h
  cases hf : findOneByTitel st auto.titel with
  | none => simp [hf] at h
  | some r =>
    simp only [hf] at h
    simp only [findOneByTitel] at hf
    refine ⟨r, List.mem_of_find?_eq_some hf, ?_, ?_⟩
    · simpa using List.find?_some hf
    · injection h with h
      exact h.symm

/-- C5: when every record holding the candidate title is the record
being updated itself, `validateUpdate` never reports a title conflict —
a record keeping its own unique values does not self-conflict. -/
theorem c5_no_self_conflict (st : Store) (auto : Buch) (tok : Option String)
    (t : String) (oid : Option String)
    (h : ∀ r ∈ st, r.titel = auto.titel → r._id = auto._id) :
    BuchService.validateUpdate st auto tok ≠
      some (BuchServiceError.TitelExists t oid) := by
  intro hc
  unfold BuchService.validateUpdate at hc
  cases hv : BuchService.validateVersion tok with
  | error e =>
    simp only [hv] at hc
    obtain ⟨x, rfl⟩ := validateVersion_error_shape tok e hv
    exact BuchServiceError.noConfusion (Option.some.inj hc)
  | ok version =>
    simp only [hv] at hc
    cases hb : validateBuch auto with
    | some m =>
      simp only [hb] at hc
      exact BuchServiceError.noConfusion (Option.some.inj hc)
    | none =>
      simp only [hb] at hc
      cases hct : BuchService.checkTitelExists st auto with
      | none =>
        simp only [hct] at hc
        rcases validateUpdateTail_some_shape st auto version _ hc with
          ⟨x, hx⟩ | ⟨i, w, hx⟩ <;> exact BuchServiceError.noConfusion hx
      | some p =>
        simp only [hct] at hc
        obtain ⟨r, hrmem, hrt, rfl⟩ := checkTitelExists_mem st auto p hct
        simp only at hc
        rw [if_neg (not_not_intro (h r hrmem hrt))] at hc
        rcases validateUpdateTail_some_shape st auto version _ hc with
          ⟨x, hx⟩ | ⟨i, w, hx⟩ <;> exact BuchServiceError.noConfusion hx

/-- C5 witness: updating the stored record with its own unchanged
title does not yield a conflict against itself. -/
theorem c5_witness :
    BuchService.validateUpdate [buchAlpha] candAlpha (some "0") ≠
      some (BuchServiceError.TitelExists "Alpha" (some alphaId)) :=
  c5_no_self_conflict [buchAlpha] candAlpha (some "0") "Alpha" (some alphaId)
    (by decide)

theorem validateUpdate_not_version_invalid (st : Store) (auto : Buch)
    (tok : Option String) (v : Int) (x : Option String)
    (hv : BuchService.validateVersion tok = Except.ok v) :
    BuchService.validateUpdate st auto tok ≠
      some (BuchServiceError.VersionInvalid x) := by
  intro hc
  unfold BuchService.validateUpdate at hc
  simp only [hv] at hc
  cases hb : validateBuch auto with
  | some m =>
    simp only [hb] at hc
    exact BuchServiceError.noConfusion (Option.some.inj hc)
  | none =>
    simp only [hb] at hc
    cases hct : BuchService.checkTitelExists st auto with
    | none =>
      simp only [hct] at hc
      rcases validateUpdateTail_some_shape st auto v _ hc with
        ⟨y, hy⟩ | ⟨i, w, hy⟩ <;> exact BuchServiceError.noConfusion hy
    | some p =>
      simp only [hct] at hc
      obtain ⟨pt, pid⟩ := p
      simp only at hc
      by_cases hne : pid ≠ auto._id
      · rw [if_pos hne] at hc
        exact BuchServiceError.noConfusion (Option.some.inj hc)
      · rw [if_neg hne] at hc
        rcases validateUpdateTail_some_shape st auto v _ hc with
          ⟨y, hy⟩ | ⟨i, w, hy⟩ <;> exact BuchServiceError.noConfusion hy

theorem update_not_version_invalid (st : Store) (auto : Buch)
    (tok : Option String) (v : Int) (x : Option String)
    (hv : BuchService.validateVersion tok = Except.ok v) :
    (BuchService.update st auto tok).2 ≠
      Except.error (BuchServiceError.VersionInvalid x) := by
  intro hc
  unfold BuchService.update at hc
  cases hvu : BuchService.validateUpdate st auto tok with
  | some e =>
    simp only [hvu] at hc
    have he : e = BuchServiceError.VersionInvalid x := by
      injection hc with hc
    exact validateUpdate_not_version_invalid st auto tok v x hv (he ▸ hvu)
  | none =>
    simp only [hvu] at hc
    unfold BuchService.updateWrite at hc
    cases hfu : findByIdAndUpdate st auto._id auto with
    | mk st' ores =>
      cases ores with
      | none =>
        simp only [hfu] at hc
        exact BuchServiceError.noConfusion (Except.error.inj hc)
      | some u =>
        simp only [hfu] at hc
        cases hc

theorem validateUpdate_passes (st : Store) (auto : Buch) (tok : Option String)
    (v : Int) (id : String) (r0 : Buch)
    (hv : BuchService.validateVersion tok = Except.ok v)
    (hb : validateBuch auto = none)
    (hself : ∀ r ∈ st, r.titel = auto.titel → r._id = auto._id)
    (hid : auto._id = some id)
    (hr0 : findDocById st id = some r0)
    (hge : r0.__v.getD 0 ≤ v) :
    BuchService.validateUpdate st auto tok = none := by
  have htail : BuchService.validateUpdateTail st auto v = none := by
    unfold BuchService.validateUpdateTail
    simp only [hid]
    unfold BuchService.checkIdAndVersion
    simp only [hr0]
    rw [if_neg (not_lt.mpr hge)]
  unfold BuchService.validateUpdate
  simp only [hv, hb]
  cases hct : BuchService.checkTitelExists st auto with
  | none => simpa [hct] using htail
  | some p =>
    obtain ⟨r, hrmem, hrt, rfl⟩ := checkTitelExists_mem st auto p hct
    simp only [hct]
    rw [if_neg (not_not_intro (hself r hrmem hrt))]
    exact htail

/-- C10: the GraphQL update derives its version token from the
candidate, defaulting to "0" when `__v` is absent, so it never yields
`VersionInvalid`; and updating a version-0 record without supplying a
version succeeds with the new version 1. -/
theorem c10_graphql_default_version (st : Store) (auto : Buch)
    (h : auto.__v = none) :
    (∀ x, (updateBuch st auto).2 ≠
      Except.error (BuchServiceError.VersionInvalid x)) ∧
    (validateBuch auto = none →
      (∀ r ∈ st, r.titel = auto.titel → r._id = auto._id) →
      ∀ id r0, auto._id = some id → findDocById st id = some r0 →
        r0.__v = some 0 → (updateBuch st auto).2 = Except.ok 1) := by
  have hs : toString (0 : Int) = "0" := rfl
  have htok : updateBuch st auto = BuchService.update st auto (some "0") := by
    simp [updateBuch, h, hs]
  constructor
  · intro x
    rw [htok]
    exact update_not_version_invalid st auto (some "0") 0 x rfl
  · intro hb hself id r0 hid hr0 hv0
    rw [htok]
    have hvu : BuchService.validateUpdate st auto (some "0") = none :=
      validateUpdate_passes st auto (some "0") 0 id r0 rfl hb hself hid hr0
        (by simp [hv0])
    have hupd : BuchService.update st auto (some "0") =
        BuchService.updateWrite st auto := by
      simp [BuchService.update, hvu]
    have hf := updateWrite_found st auto id r0 hid hr0
    rw [hupd, hf.1]
    simp [hv0]

/-- C10 witness: a concrete GraphQL update without a version field on
a version-0 record returns version 1 and no `VersionInvalid`. -/
theorem c10_witness :
    (∀ x, (updateBuch [buchAlpha] candAlpha).2 ≠
      Except.error (BuchServiceError.VersionInvalid x)) ∧
    (updateBuch [buchAlpha] candAlpha).2 = Except.ok 1 := by
  have h := c10_graphql_default_version [buchAlpha] candAlpha (by rfl)
  exact ⟨h.1, h.2 (by rfl) (by decide) alphaId buchAlpha (by rfl) (by rfl)
    (by rfl)⟩

/-- C4 (amended): `create` runs validation, then the title-uniqueness
check, then the isbn-uniqueness check, in that order, returning the
first failure — `BuchInvalid(violations)`, else `TitelExists(titel)`
carrying, contrary to the original claim, no conflicting id (the
create-path existence lookup reports only a boolean), else
`IsbnExists(isbn)` likewise without conflicting id — and otherwise
persists the record with version 0 and returns the new id. -/
theorem c4_create_pipeline (st : Store) (auto : Buch) (freshId : String)
    (now : Int) (m : Except String Unit) :
    (∀ msg, validateBuch auto = some msg →
      BuchService.create st auto freshId now m =
        (st, Except.error (BuchServiceError.BuchInvalid msg))) ∧
    (validateBuch auto = none → existsByTitel st auto.titel = true →
      BuchService.create st auto freshId now m =
        (st, Except.error (BuchServiceError.TitelExists auto.titel none))) ∧
    (validateBuch auto = none → existsByTitel st auto.titel = false →
      existsByIsbn st auto.isbn = true →
      BuchService.create st auto freshId now m =
        (st, Except.error (BuchServiceError.IsbnExists auto.isbn none))) ∧
    (validateBuch auto = none → existsByTitel st auto.titel = false →
      existsByIsbn st auto.isbn = false →
      BuchService.create st auto freshId now m =
        (st ++ [{ auto with
                  _id := some freshId, __v := some 0,
                  createdAt := some now, updatedAt := some now }],
          Except.ok freshId)) := by
  refine ⟨?_, ?_, ?_, ?_⟩
  · intro msg hmsg
    simp [BuchService.create, BuchService.validateCreate, hmsg]
  · intro hb ht
    simp [BuchService.create, BuchService.validateCreate, hb, ht]
  · intro hb ht hi
    simp [BuchService.create, BuchService.validateCreate, hb, ht, hi]
  · intro hb ht hi
    simp [BuchService.create, BuchService.validateCreate, hb, ht, hi, saveNew]

/-- C4 counterexample: creating a candidate whose title collides with
a stored record yields `TitelExists` carrying no conflicting id, even
though the conflicting record and its id exist in the store. -/
theorem c4_counterexample :
    (BuchService.create [buchAlpha] candCreate "fresh-id" 9 (Except.ok ())).2 =
      Except.error (BuchServiceError.TitelExists "Alpha" none) ∧
    findOneByTitel [buchAlpha] candCreate.titel = some buchAlpha ∧
    buchAlpha._id = some alphaId := ⟨rfl, rfl, rfl⟩

/-- C4 witness: the three pipeline outcomes of `create` evaluated at
concrete candidates. -/
theorem c4_witness :
    BuchService.create [buchAlpha] { candCreate with preis := -1 } "f1" 9
        (Except.ok ()) =
      ([buchAlpha], Except.error (BuchServiceError.BuchInvalid ["preis"])) ∧
    (BuchService.create [buchAlpha] candCreate "f1" 9 (Except.ok ())).2 =
      Except.error (BuchServiceError.TitelExists "Alpha" none) ∧
    BuchService.create [buchAlpha] candBeta "f1" 9 (Except.ok ()) =
      ([buchAlpha] ++ [{ candBeta with
                         _id := some "f1", __v := some 0,
                         createdAt := some 9, updatedAt := some 9 }],
        Except.ok "f1") := by
  have h1 := c4_create_pipeline [buchAlpha] { candCreate with preis := -1 }
    "f1" 9 (Except.ok ())
  have h2 := c4_create_pipeline [buchAlpha] candCreate "f1" 9 (Except.ok ())
  have h3 := c4_create_pipeline [buchAlpha] candBeta "f1" 9 (Except.ok ())
  refine ⟨h1.1 ["preis"] (by rfl), ?_, h3.2.2.2 (by rfl) (by rfl) (by rfl)⟩
  rw [h2.2.1 (by rfl) (by rfl)]
  rfl

/-- C9 (amended): `find` matches records by case-insensitive substring
on the title only when the filter string is shorter than 10 characters;
a filter of length 10 or more is dropped from the store query entirely,
so records are then returned regardless of their title; the tag flags
filter by set-membership in both cases, and every record containing the
filter (and matching the tags) is returned. -/
theorem c9_find_name_filter (st : Store) (q : Query) (t : String) (r0 : Buch)
    (ht : q.titel = some t) :
    (t.length < 10 →
      BuchService.find st (some q) =
        (st.filter (fun r => regexTestCI t r.titel &&
          tagsMatch (tagsFilter q) r)).map BuchService.deleteTimestamps) ∧
    (10 ≤ t.length →
      BuchService.find st (some q) =
        (st.filter (fun r => tagsMatch (tagsFilter q) r)).map
          BuchService.deleteTimestamps) ∧
    (r0 ∈ st → regexTestCI t r0.titel = true →
      tagsMatch (tagsFilter q) r0 = true →
      BuchService.deleteTimestamps r0 ∈ BuchService.find st (some q)) := by
  have hne : q.isEmptyQ = false := by
    simp [Query.isEmptyQ, ht]
  have hfind : BuchService.find st (some q) =
      (st.filter (matchesDbQuery (titelPat q) (tagsFilter q))).map
        BuchService.deleteTimestamps := by
    simp [BuchService.find, hne]
  have hshort : t.length < 10 →
      BuchService.find st (some q) =
        (st.filter (fun r => regexTestCI t r.titel &&
          tagsMatch (tagsFilter q) r)).map BuchService.deleteTimestamps := by
    intro hlt
    have hpat : titelPat q = some t := by
      simp [titelPat, ht, hlt]
    rw [hfind, hpat]
    have hm : matchesDbQuery (some t) (tagsFilter q) =
        fun r => regexTestCI t r.titel && tagsMatch (tagsFilter q) r := by
      funext r
      simp [matchesDbQuery]
    rw [hm]
  have hlong : 10 ≤ t.length →
      BuchService.find st (some q) =
        (st.filter (fun r => tagsMatch (tagsFilter q) r)).map
          BuchService.deleteTimestamps := by
    intro hge
    have hpat : titelPat q = none := by
      simp [titelPat, ht, not_lt.mpr hge]
    rw [hfind, hpat]
    have hm : matchesDbQuery none (tagsFilter q) =
        fun r => tagsMatch (tagsFilter q) r := by
      funext r
      simp [matchesDbQuery]
    rw [hm]
  refine ⟨hshort, hlong, ?_⟩
  intro hmem hre htags
  by_cases hlt : t.length < 10
  · rw [hshort hlt]
    exact List.mem_map_of_mem _
      (List.mem_filter.mpr ⟨hmem, by simp [hre, htags]⟩)
  · rw [hlong (not_lt.mp hlt)]
    exact List.mem_map_of_mem _ (List.mem_filter.mpr ⟨hmem, htags⟩)

/-- C9 counterexample: with the 10-character filter "0123456789" a
stored record whose title does not contain the filter is nevertheless
returned, so `find` does not match by case-insensitive substring for
every filter string. -/
theorem c9_counterexample :
    BuchService.find [buchAlpha]
        (some { titel := some "0123456789", javascript := none,
                typescript := none }) =
      [BuchService.deleteTimestamps buchAlpha] ∧
    regexTestCI "0123456789" buchAlpha.titel = false := ⟨rfl, rfl⟩

/-- C9 witness: a record whose title contains the short filter "LPH"
(ignoring case) is returned. -/
theorem c9_witness :
    BuchService.deleteTimestamps buchAlpha ∈
      BuchService.find [buchAlpha]
        (some { titel := some "LPH", javascript := none,
                typescript := none }) := by
  have h := c9_find_name_filter [buchAlpha]
    { titel := some "LPH", javascript := none, typescript := none }
    "LPH" buchAlpha rfl
  exact h.2.2 (by simp) (by rfl) (by rfl)
